import Mathlib

/-!
Verification of the `level5_ai_scientist` core of the
quantum-limit-graph serendipity-trace repository.

The Rust sources are shallowly embedded: `f64` values are modelled as `ℚ`
(all arithmetic on the verified paths is exact), except where a division
by zero can occur, which is modelled by the `F` type below so that the
IEEE `0.0/0.0 = NaN` outcome stays visible.  Clock reads (`Utc::now()`)
are explicit parameters.  `HashMap`/`HashSet` contents are modelled by
association lists and explicit iteration-order parameters.
-/

/-- Discovery stage, from `serendipity_trace.rs` (`SerendipityStage`). -/
inductive SerendipityStage where
  | Exploration
  | UnexpectedConnection
  | HypothesisFormation
  | Validation
  | Integration
  | Publication
deriving DecidableEq

/-- Agent type, from `serendipity_trace.rs` (`SerendipityAgent`). -/
inductive SerendipityAgent where
  | Explorer
  | PatternRecognizer
  | HypothesisGenerator
  | Validator
  | Synthesizer
  | Translator
  | MetaOrchestrator
deriving DecidableEq

/-- The string produced by Rust's derived `Debug` formatting of a stage. -/
def SerendipityStage.debugStr : SerendipityStage → String
  | .Exploration => "Exploration"
  | .UnexpectedConnection => "UnexpectedConnection"
  | .HypothesisFormation => "HypothesisFormation"
  | .Validation => "Validation"
  | .Integration => "Integration"
  | .Publication => "Publication"

/-- The string produced by Rust's derived `Debug` formatting of an agent. -/
def SerendipityAgent.debugStr : SerendipityAgent → String
  | .Explorer => "Explorer"
  | .PatternRecognizer => "PatternRecognizer"
  | .HypothesisGenerator => "HypothesisGenerator"
  | .Validator => "Validator"
  | .Synthesizer => "Synthesizer"
  | .Translator => "Translator"
  | .MetaOrchestrator => "MetaOrchestrator"

/-- `SerendipityEvent` from `serendipity_trace.rs`. -/
structure SerendipityEvent where
  event_id : String
  timestamp : Int
  stage : SerendipityStage
  agent : SerendipityAgent
  input : String
  output : String
  language : String
  serendipity_score : ℚ
  confidence : ℚ
  metadata : List (String × String)
deriving DecidableEq

/-- `SerendipityTransition` from `serendipity_trace.rs`. -/
structure SerendipityTransition where
  from_event : String
  to_event : String
  from_agent : SerendipityAgent
  to_agent : SerendipityAgent
  transition_score : ℚ
  reason : String
  language_shift : Option (String × String)
deriving DecidableEq

/-- `SerendipityTrace` from `serendipity_trace.rs`. -/
structure SerendipityTrace where
  trace_id : String
  contributor_id : String
  backend : String
  discovery_name : String
  events : List SerendipityEvent
  transitions : List SerendipityTransition
  languages : List String
  overall_serendipity : ℚ
  created_at : Int
deriving DecidableEq

/-- `SerendipityTrace::new`; the `Utc::now().timestamp()` clock read is the
explicit `now` parameter. -/
def SerendipityTrace.mkNew (contributor_id backend discovery_name : String)
    (now : Int) : SerendipityTrace :=
  { trace_id := "seren_" ++ contributor_id ++ "_" ++ toString now
    contributor_id := contributor_id
    backend := backend
    discovery_name := discovery_name
    events := []
    transitions := []
    languages := []
    overall_serendipity := 0
    created_at := now }

/-- One call to `SerendipityTrace::log_event`: the argument tuple plus the
`Utc::now().timestamp_millis()` clock read made during the call. -/
structure LogCall where
  stage : SerendipityStage
  agent : SerendipityAgent
  input : String
  output : String
  language : String
  serendipity_score : ℚ
  confidence : ℚ
  now_millis : Int

/-- `SerendipityTrace::update_overall_serendipity`. -/
def SerendipityTrace.update_overall_serendipity (t : SerendipityTrace) :
    SerendipityTrace :=
  if t.events.isEmpty then
    { t with overall_serendipity := 0 }
  else
    { t with overall_serendipity :=
        (t.events.map (fun e => e.serendipity_score)).sum / (t.events.length : ℚ) }

/-- `SerendipityTrace::log_event`. -/
def SerendipityTrace.log_event (t : SerendipityTrace) (c : LogCall) :
    SerendipityTrace :=
  let event_id := "event_" ++ toString t.events.length ++ "_" ++ toString c.now_millis
  let languages :=
    if t.languages.contains c.language then t.languages
    else t.languages ++ [c.language]
  let transitions :=
    match t.events.getLast? with
    | none => t.transitions
    | some prev =>
        t.transitions ++
          [{ from_event := prev.event_id
             to_event := event_id
             from_agent := prev.agent
             to_agent := c.agent
             transition_score := (prev.confidence + c.confidence) / 2
             reason := prev.stage.debugStr ++ " -> " ++ c.stage.debugStr
             language_shift :=
               if prev.language ≠ c.language then
                 some (prev.language, c.language)
               else none }]
  let event : SerendipityEvent :=
    { event_id := event_id
      timestamp := c.now_millis
      stage := c.stage
      agent := c.agent
      input := c.input
      output := c.output
      language := c.language
      serendipity_score := c.serendipity_score
      confidence := c.confidence
      metadata := [] }
  SerendipityTrace.update_overall_serendipity
    { t with events := t.events ++ [event]
             transitions := transitions
             languages := languages }

/-- The trace obtained from `SerendipityTrace::new` followed by a sequence of
`log_event` calls. -/
def SerendipityTrace.replay (contributor_id backend discovery_name : String)
    (now : Int) (calls : List LogCall) : SerendipityTrace :=
  calls.foldl SerendipityTrace.log_event
    (SerendipityTrace.mkNew contributor_id backend discovery_name now)

/-- The transition that `log_event` synthesizes between a previous event and
the event appended after it (same record the source constructs inline). -/
def synthTransition (prev e : SerendipityEvent) : SerendipityTransition :=
  { from_event := prev.event_id
    to_event := e.event_id
    from_agent := prev.agent
    to_agent := e.agent
    transition_score := (prev.confidence + e.confidence) / 2
    reason := prev.stage.debugStr ++ " -> " ++ e.stage.debugStr
    language_shift :=
      if prev.language ≠ e.language then some (prev.language, e.language)
      else none }

/-- `FoldedSerendipityTrace` from `serendipity_trace.rs`. -/
structure FoldedSerendipityTrace where
  trace_id : String
  discovery_name : String
  total_events : ℕ
  key_discoveries : List String
  language_transitions : List String
  overall_serendipity : ℚ
  compression_ratio : ℚ
  languages : List String
deriving DecidableEq

/-- `SerendipityTrace::fold_memory`. -/
def SerendipityTrace.fold_memory (t : SerendipityTrace) : FoldedSerendipityTrace :=
  let key_discoveries :=
    (t.events.filter (fun e => decide (e.serendipity_score > (0.7 : ℚ)))).map
      (fun e => e.stage.debugStr ++ ": " ++ e.output)
  let language_transitions :=
    t.transitions.filterMap
      (fun tr => tr.language_shift.map (fun p => p.1 ++ " -> " ++ p.2))
  let compression_ratio : ℚ :=
    if t.events.isEmpty then 0
    else (key_discoveries.length : ℚ) / (t.events.length : ℚ)
  { trace_id := t.trace_id
    discovery_name := t.discovery_name
    total_events := t.events.length
    key_discoveries := key_discoveries
    language_transitions := language_transitions
    overall_serendipity := t.overall_serendipity
    compression_ratio := compression_ratio
    languages := t.languages }

lemma update_overall_events (t : SerendipityTrace) :
    (t.update_overall_serendipity).events = t.events := by
  unfold SerendipityTrace.update_overall_serendipity
  split <;> rfl

lemma update_overall_transitions (t : SerendipityTrace) :
    (t.update_overall_serendipity).transitions = t.transitions := by
  unfold SerendipityTrace.update_overall_serendipity
  split <;> rfl

lemma zipWith_tail_append {α β : Type} (f : α → α → β) :
    ∀ (es : List α) (e : α),
      List.zipWith f (es ++ [e]) (es ++ [e]).tail =
        List.zipWith f es es.tail ++
          (match es.getLast? with
           | none => []
           | some p => [f p e]) := by
  intro es e
  induction es with
  | nil => simp
  | cons a es ih =>
    cases es with
    | nil => simp
    | cons b es' =>
      simp only [List.cons_append, List.tail_cons, List.zipWith_cons_cons,
        List.getLast?_cons_cons] at *
      rw [ih]

/-- The invariant of claim C1: the transition list is exactly the pairwise
synthesis over consecutive events. -/
def TransInv (t : SerendipityTrace) : Prop :=
  t.transitions = List.zipWith synthTransition t.events t.events.tail

lemma transInv_mkNew (cid b dn : String) (now : Int) :
    TransInv (SerendipityTrace.mkNew cid b dn now) := by
  simp [TransInv, SerendipityTrace.mkNew]

lemma transInv_log_event (t : SerendipityTrace) (c : LogCall)
    (h : TransInv t) : TransInv (t.log_event c) := by
  unfold TransInv at *
  unfold SerendipityTrace.log_event
  rw [update_overall_transitions, update_overall_events]
  simp only
  rw [zipWith_tail_append, h]
  cases hl : t.events.getLast? <;> simp [synthTransition, hl]

lemma transInv_replay (cid b dn : String) (now : Int) (calls : List LogCall) :
    TransInv (SerendipityTrace.replay cid b dn now calls) := by
  unfold SerendipityTrace.replay
  have H : ∀ (cs : List LogCall) (t : SerendipityTrace), TransInv t →
      TransInv (cs.foldl SerendipityTrace.log_event t) := by
    intro cs
    induction cs with
    | nil => intro t ht; exact ht
    | cons c cs ih =>
        intro t ht
        exact ih _ (transInv_log_event t c ht)
  exact H calls _ (transInv_mkNew cid b dn now)

/-- C1: for every trace built by a sequence of `log_event` calls,
`transitions.len() == max(events.len() - 1, 0)` (truncated subtraction on `ℕ`),
and transition *i* is exactly the synthesis of events *i* and *i+1*: it
references their ids in append order, its `transition_score` is the arithmetic
mean of their confidences, and its `language_shift` is `some` of the pair iff
the two language codes differ, `none` otherwise. -/
theorem C1_transition_invariant (cid b dn : String) (now : Int)
    (calls : List LogCall) :
    (SerendipityTrace.replay cid b dn now calls).transitions.length =
      (SerendipityTrace.replay cid b dn now calls).events.length - 1 ∧
    (SerendipityTrace.replay cid b dn now calls).transitions =
      List.zipWith synthTransition
        (SerendipityTrace.replay cid b dn now calls).events
        (SerendipityTrace.replay cid b dn now calls).events.tail := by
  have h := transInv_replay cid b dn now calls
  unfold TransInv at h
  refine ⟨?_, h⟩
  rw [h, List.length_zipWith, List.length_tail]
  omega

/-- The invariant of claim C3: the cached overall serendipity is the exact
mean of the current events' serendipity scores (0 when there are none). -/
def SerenInv (t : SerendipityTrace) : Prop :=
  t.overall_serendipity =
    if t.events = [] then 0
    else (t.events.map (fun e => e.serendipity_score)).sum / (t.events.length : ℚ)

lemma serenInv_update (t : SerendipityTrace) :
    SerenInv (t.update_overall_serendipity) := by
  unfold SerenInv SerendipityTrace.update_overall_serendipity
  cases h : t.events.isEmpty <;>
    simp_all [List.isEmpty_iff]

lemma serenInv_log_event (t : SerendipityTrace) (c : LogCall) :
    SerenInv (t.log_event c) := by
  unfold SerendipityTrace.log_event
  exact serenInv_update _

lemma serenInv_mkNew (cid b dn : String) (now : Int) :
    SerenInv (SerendipityTrace.mkNew cid b dn now) := by
  simp [SerenInv, SerendipityTrace.mkNew]

/-- C3: after every `log_event` call, and on a freshly created trace, the
`overall_serendipity` field equals the arithmetic mean of the serendipity
scores of the events currently in the trace, and equals 0 when the trace has
no events. -/
theorem C3_overall_serendipity_mean (cid b dn : String) (now : Int)
    (calls : List LogCall) :
    (SerendipityTrace.replay cid b dn now calls).overall_serendipity =
      if (SerendipityTrace.replay cid b dn now calls).events = [] then 0
      else ((SerendipityTrace.replay cid b dn now calls).events.map
              (fun e => e.serendipity_score)).sum /
           ((SerendipityTrace.replay cid b dn now calls).events.length : ℚ) := by
  have H : ∀ (cs : List LogCall) (t : SerendipityTrace), SerenInv t →
      SerenInv (cs.foldl SerendipityTrace.log_event t) := by
    intro cs
    induction cs with
    | nil => intro t ht; exact ht
    | cons c cs ih => intro t _; exact ih _ (serenInv_log_event t c)
  exact H calls _ (serenInv_mkNew cid b dn now)

/-- C4: `fold_memory` has `compression_ratio = 0` on an empty trace and
otherwise the number of events with serendipity score strictly above 0.7
divided by the total number of events, and `key_discoveries` is exactly the
list of descriptions of those events, in append order. -/
theorem C4_fold_memory_compression (t : SerendipityTrace) :
    (t.fold_memory).compression_ratio =
      (if t.events = [] then 0
       else ((t.events.filter
                (fun e => decide (e.serendipity_score > (0.7 : ℚ)))).length : ℚ) /
            (t.events.length : ℚ)) ∧
    (t.fold_memory).key_discoveries =
      (t.events.filter (fun e => decide (e.serendipity_score > (0.7 : ℚ)))).map
        (fun e => e.stage.debugStr ++ ": " ++ e.output) := by
  unfold SerendipityTrace.fold_memory
  refine ⟨?_, rfl⟩
  simp only [List.length_map, List.isEmpty_iff]

/-! ### SHA-256 (for `compute_provenance_hash`, claim C2)

A byte-level implementation of FIPS 180-4 SHA-256 over `List ℕ` (bytes),
with 32-bit words as naturals reduced mod 2^32. -/

/-- Rotate a 32-bit word right by `n`. -/
def rotr32 (n x : ℕ) : ℕ := ((x >>> n) ||| (x <<< (32 - n))) % 4294967296

/-- The eight SHA-256 initial hash words. -/
structure Sha256State where
  a : ℕ
  b : ℕ
  c : ℕ
  d : ℕ
  e : ℕ
  f : ℕ
  g : ℕ
  h : ℕ

def sha256H0 : Sha256State :=
  ⟨1779033703, 3144134277, 1013904242, 2773480762,
   1359893119, 2600822924, 528734635, 1541459225⟩

def sha256K : List ℕ :=
  [1116352408, 1899447441, 3049323471, 3921009573,
   961987163, 1508970993, 2453635748, 2870763221,
   3624381080, 310598401, 607225278, 1426881987,
   1925078388, 2162078206, 2614888103, 3248222580,
   3835390401, 4022224774, 264347078, 604807628,
   770255983, 1249150122, 1555081692, 1996064986,
   2554220882, 2821834349, 2952996808, 3210313671,
   3336571891, 3584528711, 113926993, 338241895,
   666307205, 773529912, 1294757372, 1396182291,
   1695183700, 1986661051, 2177026350, 2456956037,
   2730485921, 2820302411, 3259730800, 3345764771,
   3516065817, 3600352804, 4094571909, 275423344,
   430227734, 506948616, 659060556, 883997877,
   958139571, 1322822218, 1537002063, 1747873779,
   1955562222, 2024104815, 2227730452, 2361852424,
   2428436474, 2756734187, 3204031479, 3329325298]

/-- Extend the message schedule by one word. -/
def sha256ScheduleStep (ws : List ℕ) : List ℕ :=
  let i := ws.length
  let w15 := ws.getD (i - 15) 0
  let w2 := ws.getD (i - 2) 0
  let s0 := rotr32 7 w15 ^^^ rotr32 18 w15 ^^^ (w15 >>> 3)
  let s1 := rotr32 17 w2 ^^^ rotr32 19 w2 ^^^ (w2 >>> 10)
  ws ++ [(ws.getD (i - 16) 0 + s0 + ws.getD (i - 7) 0 + s1) % 4294967296]

/-- Full 64-word message schedule from a 16-word block. -/
def sha256Schedule (block : List ℕ) : List ℕ :=
  Nat.iterate sha256ScheduleStep 48 block

/-- One SHA-256 round, consuming the pair (round constant, schedule word). -/
def sha256Round (st : Sha256State) (kw : ℕ × ℕ) : Sha256State :=
  let S1 := rotr32 6 st.e ^^^ rotr32 11 st.e ^^^ rotr32 25 st.e
  let ch := (st.e &&& st.f) ^^^ ((4294967295 ^^^ st.e) &&& st.g)
  let temp1 := (st.h + S1 + ch + kw.1 + kw.2) % 4294967296
  let S0 := rotr32 2 st.a ^^^ rotr32 13 st.a ^^^ rotr32 22 st.a
  let maj := (st.a &&& st.b) ^^^ (st.a &&& st.c) ^^^ (st.b &&& st.c)
  let temp2 := (S0 + maj) % 4294967296
  ⟨(temp1 + temp2) % 4294967296, st.a, st.b, st.c,
   (st.d + temp1) % 4294967296, st.e, st.f, st.g⟩

/-- Compress one 16-word block into the running state. -/
def sha256Compress (st : Sha256State) (block : List ℕ) : Sha256State :=
  let ws := sha256Schedule block
  let r := (sha256K.zip ws).foldl sha256Round st
  ⟨(st.a + r.a) % 4294967296, (st.b + r.b) % 4294967296,
   (st.c + r.c) % 4294967296, (st.d + r.d) % 4294967296,
   (st.e + r.e) % 4294967296, (st.f + r.f) % 4294967296,
   (st.g + r.g) % 4294967296, (st.h + r.h) % 4294967296⟩

/-- SHA-256 padding: append 0x80, zeros to 56 mod 64, then the 64-bit
big-endian bit length. -/
def sha256Pad (msg : List ℕ) : List ℕ :=
  let L := msg.length
  let k := (119 - L % 64) % 64
  msg ++ [128] ++ List.replicate k 0 ++
    (List.range 8).map (fun i => ((8 * L) >>> (8 * (7 - i))) % 256)

/-- Group bytes into big-endian 32-bit words. -/
def bytesToWords : List ℕ → List ℕ
  | b0 :: b1 :: b2 :: b3 :: rest =>
      (b0 * 16777216 + b1 * 65536 + b2 * 256 + b3) :: bytesToWords rest
  | _ => []

/-- Split a byte list into 64-byte blocks. -/
def toBlocks (bs : List ℕ) : List (List ℕ) :=
  (List.range (bs.length / 64)).map (fun i => (bs.drop (64 * i)).take 64)

/-- Big-endian bytes of a 32-bit word. -/
def wordBytes (w : ℕ) : List ℕ :=
  [(w >>> 24) % 256, (w >>> 16) % 256, (w >>> 8) % 256, w % 256]

/-- The 32-byte SHA-256 digest of a byte message. -/
def sha256Bytes (msg : List ℕ) : List ℕ :=
  let st := ((toBlocks (sha256Pad msg)).map bytesToWords).foldl
    sha256Compress sha256H0
  wordBytes st.a ++ wordBytes st.b ++ wordBytes st.c ++ wordBytes st.d ++
    wordBytes st.e ++ wordBytes st.f ++ wordBytes st.g ++ wordBytes st.h

/-- The sixteen lowercase hexadecimal digit characters. -/
def hexDigits : List Char := (List.range 16).map Nat.digitChar

/-- Two lowercase hex characters of a byte (Rust's `{:x}` digest format);
`Nat.digitChar` yields the lowercase hex digit below 16. -/
def byteToHex (b : ℕ) : List Char :=
  [Nat.digitChar (b / 16 % 16), Nat.digitChar (b % 16)]

def bytesToHexString (bs : List ℕ) : String := ⟨bs.flatMap byteToHex⟩

/-- UTF-8 bytes of one character. -/
def utf8Char (c : Char) : List ℕ :=
  let n := c.toNat
  if n < 128 then [n]
  else if n < 2048 then [192 + n / 64, 128 + n % 64]
  else if n < 65536 then [224 + n / 4096, 128 + n / 64 % 64, 128 + n % 64]
  else [240 + n / 262144, 128 + n / 4096 % 64, 128 + n / 64 % 64, 128 + n % 64]

/-- UTF-8 bytes of a string (what `str::as_bytes` feeds the hasher). -/
def utf8Encode (s : String) : List ℕ := s.data.flatMap utf8Char

/-- The per-event fields fed to the hasher, in source order. -/
def eventHashFields (e : SerendipityEvent) :
    String × String × String × String × ℚ :=
  (e.event_id, e.input, e.output, e.language, e.serendipity_score)

/-- The per-transition fields fed to the hasher, in source order. -/
def transitionHashFields (tr : SerendipityTransition) : String × String × ℚ :=
  (tr.from_event, tr.to_event, tr.transition_score)

/-- Bytes fed to the hasher for one event; `render` models Rust's
`format!` decimal rendering of an `f64`. -/
def eventHashContent (render : ℚ → String) (e : SerendipityEvent) : String :=
  e.event_id ++ e.input ++ e.output ++ e.language ++ render e.serendipity_score

/-- Bytes fed to the hasher for one transition. -/
def transitionHashContent (render : ℚ → String) (tr : SerendipityTransition) :
    String :=
  tr.from_event ++ tr.to_event ++ render tr.transition_score

/-- The full canonical byte content hashed by `compute_provenance_hash`:
incremental `hasher.update` calls hash exactly the concatenation. -/
def canonicalContent (render : ℚ → String) (t : SerendipityTrace) : String :=
  t.trace_id ++ t.contributor_id ++ t.backend ++ t.discovery_name ++
    String.join (t.events.map (eventHashContent render)) ++
    String.join (t.transitions.map (transitionHashContent render))

/-- `SerendipityTrace::compute_provenance_hash`. -/
def SerendipityTrace.compute_provenance_hash (render : ℚ → String)
    (t : SerendipityTrace) : String :=
  bytesToHexString (sha256Bytes (utf8Encode (canonicalContent render t)))

lemma sha256Bytes_length (msg : List ℕ) : (sha256Bytes msg).length = 32 := by
  simp [sha256Bytes, wordBytes]

lemma bytesToHexString_length (bs : List ℕ) :
    (bytesToHexString bs).length = 2 * bs.length := by
  show (bs.flatMap byteToHex).length = 2 * bs.length
  induction bs with
  | nil => rfl
  | cons b bs ih =>
      simp only [List.flatMap_cons, List.length_append, List.length_cons, ih,
        byteToHex, List.length_nil]
      omega

lemma digitChar_mem_hexDigits (m : ℕ) (hm : m < 16) :
    Nat.digitChar m ∈ hexDigits :=
  List.mem_map.mpr ⟨m, List.mem_range.mpr hm, rfl⟩

lemma mem_hexDigits_of_mem_byteToHex (b : ℕ) (c : Char)
    (hc : c ∈ byteToHex b) : c ∈ hexDigits := by
  simp only [byteToHex, List.mem_cons, List.not_mem_nil, or_false] at hc
  rcases hc with h | h
  · exact h ▸ digitChar_mem_hexDigits _ (Nat.mod_lt _ (by norm_num))
  · exact h ▸ digitChar_mem_hexDigits _ (Nat.mod_lt _ (by norm_num))

/-- C2: `compute_provenance_hash` is a 64-hexadecimal-character digest and a
function of exactly the canonical content: trace id, contributor id, backend,
discovery name, the per-event fields (event id, input, output, language,
serendipity score) in append order, and the per-transition fields (from-event
id, to-event id, transition score) in order.  Two traces agreeing on all of
these fields — whatever their other fields — hash identically under the same
floating-point rendering. -/
theorem C2_provenance_hash (render : ℚ → String) (t1 t2 : SerendipityTrace)
    (hid : t1.trace_id = t2.trace_id)
    (hcon : t1.contributor_id = t2.contributor_id)
    (hback : t1.backend = t2.backend)
    (hdisc : t1.discovery_name = t2.discovery_name)
    (hev : t1.events.map eventHashFields = t2.events.map eventHashFields)
    (htr : t1.transitions.map transitionHashFields =
      t2.transitions.map transitionHashFields) :
    SerendipityTrace.compute_provenance_hash render t1 =
      SerendipityTrace.compute_provenance_hash render t2 ∧
    (SerendipityTrace.compute_provenance_hash render t1).length = 64 ∧
    ∀ c ∈ (SerendipityTrace.compute_provenance_hash render t1).data,
      c ∈ hexDigits := by
  have hev' : t1.events.map (eventHashContent render) =
      t2.events.map (eventHashContent render) := by
    have h1 := congrArg
      (List.map (fun p : String × String × String × String × ℚ =>
        p.1 ++ p.2.1 ++ p.2.2.1 ++ p.2.2.2.1 ++ render p.2.2.2.2)) hev
    rw [List.map_map, List.map_map] at h1
    exact h1
  have htr' : t1.transitions.map (transitionHashContent render) =
      t2.transitions.map (transitionHashContent render) := by
    have h1 := congrArg
      (List.map (fun p : String × String × ℚ =>
        p.1 ++ p.2.1 ++ render p.2.2)) htr
    rw [List.map_map, List.map_map] at h1
    exact h1
  have hcanon : canonicalContent render t1 = canonicalContent render t2 := by
    unfold canonicalContent
    rw [hid, hcon, hback, hdisc, hev', htr']
  refine ⟨?_, ?_, ?_⟩
  · unfold SerendipityTrace.compute_provenance_hash
    rw [hcanon]
  · unfold SerendipityTrace.compute_provenance_hash
    rw [bytesToHexString_length, sha256Bytes_length]
  · intro c hc
    have hc' : c ∈ (sha256Bytes (utf8Encode (canonicalContent render t1))).flatMap
        byteToHex := hc
    rcases List.mem_flatMap.mp hc' with ⟨b, _, hb⟩
    exact mem_hexDigits_of_mem_byteToHex b c hb

/-- Witness for C2: two concrete traces equal in all canonical fields but
differing in timestamps, stages, agents, confidences, languages list, overall
serendipity and creation time have the same 64-character hexadecimal digest. -/
theorem C2_provenance_hash_witness :
    SerendipityTrace.compute_provenance_hash (fun q => toString q)
      { trace_id := "seren_r1_7", contributor_id := "r1", backend := "b"
        discovery_name := "Journavx"
        events := [{ event_id := "event_0_1", timestamp := 1
                     stage := .Exploration, agent := .Explorer
                     input := "i", output := "o", language := "en"
                     serendipity_score := 1/2, confidence := 9/10
                     metadata := [] }]
        transitions := [], languages := ["en"], overall_serendipity := 1/2
        created_at := 7 } =
    SerendipityTrace.compute_provenance_hash (fun q => toString q)
      { trace_id := "seren_r1_7", contributor_id := "r1", backend := "b"
        discovery_name := "Journavx"
        events := [{ event_id := "event_0_1", timestamp := 99
                     stage := .Validation, agent := .Translator
                     input := "i", output := "o", language := "en"
                     serendipity_score := 1/2, confidence := 1/10
                     metadata := [("k", "v")] }]
        transitions := [], languages := [], overall_serendipity := 0
        created_at := 123 } ∧
    (SerendipityTrace.compute_provenance_hash (fun q => toString q)
      { trace_id := "seren_r1_7", contributor_id := "r1", backend := "b"
        discovery_name := "Journavx"
        events := [{ event_id := "event_0_1", timestamp := 1
                     stage := .Exploration, agent := .Explorer
                     input := "i", output := "o", language := "en"
                     serendipity_score := 1/2, confidence := 9/10
                     metadata := [] }]
        transitions := [], languages := ["en"], overall_serendipity := 1/2
        created_at := 7 }).length = 64 := by
  have h := C2_provenance_hash (fun q => toString q)
    { trace_id := "seren_r1_7", contributor_id := "r1", backend := "b"
      discovery_name := "Journavx"
      events := [{ event_id := "event_0_1", timestamp := 1
                   stage := .Exploration, agent := .Explorer
                   input := "i", output := "o", language := "en"
                   serendipity_score := 1/2, confidence := 9/10
                   metadata := [] }]
      transitions := [], languages := ["en"], overall_serendipity := 1/2
      created_at := 7 }
    { trace_id := "seren_r1_7", contributor_id := "r1", backend := "b"
      discovery_name := "Journavx"
      events := [{ event_id := "event_0_1", timestamp := 99
                   stage := .Validation, agent := .Translator
                   input := "i", output := "o", language := "en"
                   serendipity_score := 1/2, confidence := 1/10
                   metadata := [("k", "v")] }]
      transitions := [], languages := [], overall_serendipity := 0
      created_at := 123 }
    rfl rfl rfl rfl rfl rfl
  exact ⟨h.1, h.2.1⟩

/-! ### Multilingual memory folding (`fold_multilingual_memory.rs`)

`LanguageAwareAgentEvent` (module `crate::AgentEvent`) and
`MultilingualAligner` (module `crate::alignment`) are not part of the
sources; they are modelled from the spec.  The aligner is passed as a pure
function standing for the service's responses.  The iteration order of the
internal `HashSet` in `detect_cross_language_patterns` is not specified by
Rust, so it is surfaced as the explicit `mlOrder` parameter constrained by
`IsHashSetOrder`. -/

/-- An IEEE f64 outcome as it matters here: a finite value (all finite
arithmetic on these paths is exact), positive infinity, or NaN. -/
inductive F where
  | val : ℚ → F
  | inf : F
  | nan : F
deriving DecidableEq

/-- Rust `f64` division: `0.0/0.0` is NaN, `x/0.0` with `x > 0` is
positive infinity, otherwise the exact quotient (numerators here are
nonnegative counts). -/
def f64Div (a b : ℚ) : F :=
  if b = 0 then (if a = 0 then F.nan else F.inf) else F.val (a / b)

/-- Modelled from the spec: `LanguageAwareEvent` of §3 (the Rust type
`crate::AgentEvent::LanguageAwareAgentEvent`, whose source file is absent):
agent-type label, input, output, primary language, confidence, optional
secondary languages and optional alignment/translation/semantic/cultural
scores. -/
structure LanguageAwareAgentEvent where
  agent_type : String
  input : String
  output : String
  primary_language : String
  confidence : ℚ
  secondary_languages : List String
  alignment_score : Option ℚ
  translation_quality : Option ℚ
  semantic_similarity : Option ℚ
  cultural_context : Option ℚ
deriving DecidableEq

/-- Modelled from the spec: `LanguageAwareAgentEvent::new(agent_type, input,
output, language, confidence)` leaves every optional annotation unset. -/
def LanguageAwareAgentEvent.mkNew (agent_type input output language : String)
    (confidence : ℚ) : LanguageAwareAgentEvent :=
  { agent_type := agent_type, input := input, output := output
    primary_language := language, confidence := confidence
    secondary_languages := [], alignment_score := none
    translation_quality := none, semantic_similarity := none
    cultural_context := none }

/-- Modelled from the spec: "Multilingual ⇔ secondary-language list is
non-empty" (§3). -/
def LanguageAwareAgentEvent.is_multilingual (e : LanguageAwareAgentEvent) :
    Bool :=
  !e.secondary_languages.isEmpty

/-- Modelled from the spec: every language an event touches, "primary plus
all secondary" (§4.2). -/
def LanguageAwareAgentEvent.all_languages (e : LanguageAwareAgentEvent) :
    List String :=
  e.primary_language :: e.secondary_languages

/-- Modelled from the spec: the external `AlignmentService` returns a
4-tuple of scores (§6); field names follow the callers in the tests. -/
structure AlignmentResult where
  overall_score : ℚ
  semantic_score : ℚ
  structural_score : ℚ
  cultural_score : ℚ
deriving DecidableEq

/-- The aligner's responses, as the pure function
`(text_a, text_b, lang_a, lang_b) ↦ result`. -/
def Aligner : Type := String → String → String → String → AlignmentResult

/-- `CrossLanguagePattern` from `fold_multilingual_memory.rs`. -/
structure CrossLanguagePattern where
  pattern_type : String
  languages : List String
  description : String
  confidence : ℚ
deriving DecidableEq

/-- `TranslationSummary` from `fold_multilingual_memory.rs`. -/
structure TranslationSummary where
  total_translations : ℕ
  average_quality : ℚ
  language_pairs : List String
  problematic_translations : ℕ
deriving DecidableEq

/-- `MultilingualMemoryFold` from `fold_multilingual_memory.rs`; the
language distribution `HashMap` is modelled by its content function
(Rust `HashMap` equality is also content-based). -/
structure MultilingualMemoryFold where
  trace_id : String
  total_events : ℕ
  key_insights : List String
  language_distribution : String → ℕ
  cross_language_patterns : List CrossLanguagePattern
  translation_summary : TranslationSummary
  compression_ratio : F
  overall_alignment : ℚ

/-- The first 50 characters of a string (`s.chars().take(50).collect()`). -/
def take50 (s : String) : String := ⟨s.data.take 50⟩

/-- `MultilingualMemoryFolder::extract_key_insights`. -/
def extract_key_insights (events : List LanguageAwareAgentEvent) :
    List String :=
  (events.filter
      (fun e => decide (e.confidence > (0.8 : ℚ)) || e.is_multilingual)).map
    (fun e =>
      if e.is_multilingual then
        "[Multilingual " ++ String.intercalate "+" e.all_languages ++ "] " ++
          e.agent_type ++ ": " ++ take50 e.input ++ " -> " ++ take50 e.output
      else
        "[" ++ e.primary_language ++ "] " ++ e.agent_type ++ ": " ++
          take50 e.output)

/-- One `*distribution.entry(lang).or_insert(0) += 1` step. -/
def distAdd (d : String → ℕ) (lang : String) : String → ℕ :=
  fun x => if x = lang then d x + 1 else d x

/-- `MultilingualMemoryFolder::compute_language_distribution`. -/
def compute_language_distribution (events : List LanguageAwareAgentEvent) :
    String → ℕ :=
  events.foldl (fun d e => e.all_languages.foldl distAdd d) (fun _ => 0)

/-- The list collected into the `HashSet` inside
`detect_cross_language_patterns`: all languages of all multilingual
events. -/
def mlLanguages (events : List LanguageAwareAgentEvent) : List String :=
  (events.filter (fun e => e.is_multilingual)).flatMap
    (fun e => e.all_languages)

/-- What any iteration order of a `HashSet` collected from `src` must
satisfy: no duplicates and exactly the elements of `src`. -/
def IsHashSetOrder (src out : List String) : Prop :=
  out.Nodup ∧ src ⊆ out ∧ out ⊆ src

instance (src out : List String) : Decidable (IsHashSetOrder src out) := by
  unfold IsHashSetOrder
  infer_instance

/-- `MultilingualMemoryFolder::detect_cross_language_patterns`; `mlOrder`
is the iteration order of the internal `HashSet` (admissible orders are
those with `IsHashSetOrder (mlLanguages events) mlOrder`). -/
def detect_cross_language_patterns (mlOrder : List String)
    (events : List LanguageAwareAgentEvent) : List CrossLanguagePattern :=
  let switchPatterns :=
    (events.zip events.tail).filterMap
      (fun w =>
        if w.1.primary_language ≠ w.2.primary_language then
          some { pattern_type := "LanguageSwitch"
                 languages := [w.1.primary_language, w.2.primary_language]
                 description := "Switch from " ++ w.1.primary_language ++
                   " to " ++ w.2.primary_language
                 confidence := (w.1.confidence + w.2.confidence) / 2 }
        else none)
  let multilingual_events := events.filter (fun e => e.is_multilingual)
  if multilingual_events.length > 2 then
    switchPatterns ++
      [{ pattern_type := "MultilingualReasoning"
         languages := mlOrder
         description := toString multilingual_events.length ++
           " multilingual reasoning steps detected"
         confidence := (multilingual_events.map (fun e => e.confidence)).sum /
           (multilingual_events.length : ℚ) }]
  else switchPatterns

/-- Accumulator of the loop in `compute_translation_summary`. -/
structure TranslationAcc where
  total_translations : ℕ
  quality_sum : ℚ
  language_pairs : List String
  problematic_translations : ℕ

/-- One iteration of the window loop in `compute_translation_summary`. -/
def tsStep (align : Aligner) (acc : TranslationAcc)
    (w : LanguageAwareAgentEvent × LanguageAwareAgentEvent) : TranslationAcc :=
  if w.1.primary_language ≠ w.2.primary_language then
    let alignment := align w.1.output w.2.input w.1.primary_language
      w.2.primary_language
    let pair := w.1.primary_language ++ "-" ++ w.2.primary_language
    { total_translations := acc.total_translations + 1
      quality_sum := acc.quality_sum + alignment.overall_score
      language_pairs :=
        if acc.language_pairs.contains pair then acc.language_pairs
        else acc.language_pairs ++ [pair]
      problematic_translations :=
        acc.problematic_translations +
          (if alignment.overall_score < (0.7 : ℚ) then 1 else 0) }
  else acc

/-- `MultilingualMemoryFolder::compute_translation_summary`. -/
def compute_translation_summary (align : Aligner)
    (events : List LanguageAwareAgentEvent) : TranslationSummary :=
  let acc := (events.zip events.tail).foldl (tsStep align)
    ⟨0, 0, [], 0⟩
  { total_translations := acc.total_translations
    average_quality :=
      if acc.total_translations > 0 then
        acc.quality_sum / (acc.total_translations : ℚ)
      else 1
    language_pairs := acc.language_pairs
    problematic_translations := acc.problematic_translations }

/-- `MultilingualMemoryFolder::calculate_overall_alignment`. -/
def calculate_overall_alignment (events : List LanguageAwareAgentEvent) : ℚ :=
  let alignment_scores := events.filterMap (fun e => e.alignment_score)
  if alignment_scores.isEmpty then 1
  else alignment_scores.sum / (alignment_scores.length : ℚ)

/-- `MultilingualMemoryFolder::fold_memory`.  Note: unlike
`SerendipityTrace::fold_memory`, the compression ratio division has no
empty-trace guard in the source. -/
def MultilingualMemoryFolder.fold_memory (align : Aligner)
    (mlOrder : List String) (trace_id : String)
    (events : List LanguageAwareAgentEvent) : MultilingualMemoryFold :=
  let total_events := events.length
  let key_insights := extract_key_insights events
  let language_distribution := compute_language_distribution events
  let cross_language_patterns := detect_cross_language_patterns mlOrder events
  let translation_summary := compute_translation_summary align events
  let compression_ratio := f64Div (key_insights.length : ℚ) (total_events : ℚ)
  let overall_alignment := calculate_overall_alignment events
  { trace_id := trace_id
    total_events := total_events
    key_insights := key_insights
    language_distribution := language_distribution
    cross_language_patterns := cross_language_patterns
    translation_summary := translation_summary
    compression_ratio := compression_ratio
    overall_alignment := overall_alignment }

/-- C5 (the source has no empty guard): on an empty event slice
`fold_memory` computes `0.0/0.0`, so the compression ratio is NaN, which is
not the claimed 0.0. -/
theorem C5_empty_fold_compression_is_nan (align : Aligner)
    (mlOrder : List String) (tid : String) :
    (MultilingualMemoryFolder.fold_memory align mlOrder tid
      []).compression_ratio = F.nan ∧ F.nan ≠ F.val 0 := by
  exact ⟨rfl, by decide⟩

lemma filterMap_ifSome_length {α β : Type} (c : α → Prop) [DecidablePred c]
    (g : α → β) (l : List α) :
    (l.filterMap (fun x => if c x then some (g x) else none)).length =
      l.countP (fun x => decide (c x)) := by
  induction l with
  | nil => rfl
  | cons a l ih =>
      by_cases h : c a <;>
        simp [List.filterMap_cons, List.countP_cons, h, ih]

lemma tsFoldl_total (align : Aligner) :
    ∀ (pairs : List (LanguageAwareAgentEvent × LanguageAwareAgentEvent))
      (acc : TranslationAcc),
      (pairs.foldl (tsStep align) acc).total_translations =
        acc.total_translations +
          pairs.countP
            (fun w => decide (w.1.primary_language ≠ w.2.primary_language)) := by
  intro pairs
  induction pairs with
  | nil => intro acc; simp
  | cons w pairs ih =>
      intro acc
      rw [List.foldl_cons, ih, List.countP_cons]
      by_cases h : w.1.primary_language ≠ w.2.primary_language
      · simp [tsStep, h]
        omega
      · simp [tsStep, h]

/-- C10: in the fold of any event sequence, the number of patterns tagged
`LanguageSwitch` equals `translation_summary.total_translations`, and both
count exactly the adjacent event pairs whose primary languages differ. -/
theorem C10_switch_count_eq_total_translations (align : Aligner)
    (mlOrder : List String) (tid : String)
    (events : List LanguageAwareAgentEvent) :
    ((MultilingualMemoryFolder.fold_memory align mlOrder tid
        events).cross_language_patterns.filter
      (fun p => p.pattern_type == "LanguageSwitch")).length =
      (MultilingualMemoryFolder.fold_memory align mlOrder tid
        events).translation_summary.total_translations ∧
    (MultilingualMemoryFolder.fold_memory align mlOrder tid
        events).translation_summary.total_translations =
      (events.zip events.tail).countP
        (fun w => decide (w.1.primary_language ≠ w.2.primary_language)) := by
  have htotal : (MultilingualMemoryFolder.fold_memory align mlOrder tid
      events).translation_summary.total_translations =
      (events.zip events.tail).countP
        (fun w => decide (w.1.primary_language ≠ w.2.primary_language)) := by
    show (compute_translation_summary align events).total_translations = _
    unfold compute_translation_summary
    simp only
    rw [tsFoldl_total]
    simp
  refine ⟨?_, htotal⟩
  rw [htotal]
  show (List.filter _ (detect_cross_language_patterns mlOrder events)).length = _
  unfold detect_cross_language_patterns
  simp only
  have hsw : ∀ p ∈ (events.zip events.tail).filterMap
      (fun w =>
        if w.1.primary_language ≠ w.2.primary_language then
          some { pattern_type := "LanguageSwitch"
                 languages := [w.1.primary_language, w.2.primary_language]
                 description := "Switch from " ++ w.1.primary_language ++
                   " to " ++ w.2.primary_language
                 confidence :=
                   (w.1.confidence + w.2.confidence) / 2 : CrossLanguagePattern }
        else none),
      (p.pattern_type == "LanguageSwitch") = true := by
    intro p hp
    rcases List.mem_filterMap.mp hp with ⟨w, _, hsome⟩
    split_ifs at hsome with hx
    cases hsome
    simp
  have hlen : ((events.zip events.tail).filterMap
      (fun w =>
        if w.1.primary_language ≠ w.2.primary_language then
          some { pattern_type := "LanguageSwitch"
                 languages := [w.1.primary_language, w.2.primary_language]
                 description := "Switch from " ++ w.1.primary_language ++
                   " to " ++ w.2.primary_language
                 confidence :=
                   (w.1.confidence + w.2.confidence) / 2 : CrossLanguagePattern }
        else none)).length =
      (events.zip events.tail).countP
        (fun w => decide (w.1.primary_language ≠ w.2.primary_language)) :=
    filterMap_ifSome_length _ _ _
  split
  · rw [List.filter_append, List.filter_eq_self.mpr hsw]
    have hmr : (List.filter (fun p => p.pattern_type == "LanguageSwitch")
        [{ pattern_type := "MultilingualReasoning"
           languages := mlOrder
           description := toString (events.filter
             (fun e => e.is_multilingual)).length ++
             " multilingual reasoning steps detected"
           confidence := ((events.filter (fun e => e.is_multilingual)).map
             (fun e => e.confidence)).sum /
             (((events.filter (fun e => e.is_multilingual)).length : ℚ)) :
           CrossLanguagePattern }]) = [] := by
      simp [List.filter]
    rw [hmr, List.length_append, List.length_nil, hlen]
    omega
  · rw [List.filter_eq_self.mpr hsw, hlen]

lemma tsFoldl_id_of_same (align : Aligner) :
    ∀ (pairs : List (LanguageAwareAgentEvent × LanguageAwareAgentEvent))
      (acc : TranslationAcc),
      (∀ w ∈ pairs, w.1.primary_language = w.2.primary_language) →
      pairs.foldl (tsStep align) acc = acc := by
  intro pairs
  induction pairs with
  | nil => intro acc _; rfl
  | cons w pairs ih =>
      intro acc h
      rw [List.foldl_cons]
      have hw : w.1.primary_language = w.2.primary_language := h w (by simp)
      have hstep : tsStep align acc w = acc := by simp [tsStep, hw]
      rw [hstep]
      exact ih acc (fun x hx => h x (by simp [hx]))

/-- C7: in any fold, if no adjacent event pair has differing primary
languages then `translation_summary.average_quality` is 1; if no event
carries an alignment score then `overall_alignment` is 1; otherwise
`overall_alignment` is the mean of exactly the alignment scores that are
present (absent ones excluded, not counted as zero). -/
theorem C7_quality_and_alignment_defaults (align : Aligner)
    (mlOrder : List String) (tid : String)
    (events : List LanguageAwareAgentEvent) :
    ((∀ w ∈ events.zip events.tail,
        w.1.primary_language = w.2.primary_language) →
      (MultilingualMemoryFolder.fold_memory align mlOrder tid
        events).translation_summary.average_quality = 1) ∧
    ((∀ e ∈ events, e.alignment_score = none) →
      (MultilingualMemoryFolder.fold_memory align mlOrder tid
        events).overall_alignment = 1) ∧
    (events.filterMap (fun e => e.alignment_score) ≠ [] →
      (MultilingualMemoryFolder.fold_memory align mlOrder tid
        events).overall_alignment =
        (events.filterMap (fun e => e.alignment_score)).sum /
          ((events.filterMap (fun e => e.alignment_score)).length : ℚ)) := by
  refine ⟨?_, ?_, ?_⟩
  · intro h
    show (compute_translation_summary align events).average_quality = 1
    unfold compute_translation_summary
    simp only
    rw [tsFoldl_id_of_same align _ _ h]
    rfl
  · intro h
    show calculate_overall_alignment events = 1
    have hnil : events.filterMap (fun e => e.alignment_score) = [] := by
      rw [List.filterMap_eq_nil_iff]
      exact h
    unfold calculate_overall_alignment
    rw [hnil]
    rfl
  · intro h
    show calculate_overall_alignment events =
      (events.filterMap (fun e => e.alignment_score)).sum /
        ((events.filterMap (fun e => e.alignment_score)).length : ℚ)
    unfold calculate_overall_alignment
    rw [if_neg]
    simpa [List.isEmpty_iff] using h

/-- An aligner giving every pair a perfect score, used for concrete
instantiations. -/
def constAligner : Aligner := fun _ _ _ _ => ⟨1, 1, 1, 1⟩

/-- Concrete multilingual events (primary en, secondary id). -/
def mlEvent1 : LanguageAwareAgentEvent :=
  { LanguageAwareAgentEvent.mkNew "Explorer" "i1" "o1" "en" (9/10) with
      secondary_languages := ["id"] }

def mlEvent2 : LanguageAwareAgentEvent :=
  { LanguageAwareAgentEvent.mkNew "PatternRecognizer" "i2" "o2" "en" (4/5) with
      secondary_languages := ["id"] }

def mlEvent3 : LanguageAwareAgentEvent :=
  { LanguageAwareAgentEvent.mkNew "Synthesizer" "i3" "o3" "en" (7/10) with
      secondary_languages := ["id"] }

def mlEvents : List LanguageAwareAgentEvent := [mlEvent1, mlEvent2, mlEvent3]

/-- An event carrying an explicit alignment score. -/
def alignedEvent : LanguageAwareAgentEvent :=
  { LanguageAwareAgentEvent.mkNew "Validator" "i4" "o4" "en" (1/2) with
      alignment_score := some (4/5) }

/-- Witness for C7 at concrete inputs: two same-language events with no
alignment scores give both defaults 1; one event with alignment score 4/5
gives the mean of the present scores. -/
theorem C7_quality_and_alignment_defaults_witness :
    (MultilingualMemoryFolder.fold_memory constAligner [] "t"
      [LanguageAwareAgentEvent.mkNew "Explorer" "i1" "o1" "en" (9/10),
       LanguageAwareAgentEvent.mkNew "Validator" "i2" "o2" "en" (4/5)
      ]).translation_summary.average_quality = 1 ∧
    (MultilingualMemoryFolder.fold_memory constAligner [] "t"
      [LanguageAwareAgentEvent.mkNew "Explorer" "i1" "o1" "en" (9/10),
       LanguageAwareAgentEvent.mkNew "Validator" "i2" "o2" "en" (4/5)
      ]).overall_alignment = 1 ∧
    (MultilingualMemoryFolder.fold_memory constAligner [] "t"
      [alignedEvent]).overall_alignment =
      ([alignedEvent].filterMap (fun e => e.alignment_score)).sum /
        (([alignedEvent].filterMap (fun e => e.alignment_score)).length : ℚ) := by
  have hA := C7_quality_and_alignment_defaults constAligner [] "t"
    [LanguageAwareAgentEvent.mkNew "Explorer" "i1" "o1" "en" (9/10),
     LanguageAwareAgentEvent.mkNew "Validator" "i2" "o2" "en" (4/5)]
  have hB := C7_quality_and_alignment_defaults constAligner [] "t"
    [alignedEvent]
  exact ⟨hA.1 (by decide), hA.2.1 (by decide), hB.2.2 (by decide)⟩

/-- C6 counterexample: with three multilingual events the
`MultilingualReasoning` pattern's `languages` list is the iteration order of
a freshly seeded `HashSet`, which Rust does not fix: both `[en, id]` and
`[id, en]` are admissible orders of the same set, and they give unequal
folds for identical inputs and identical aligner responses. -/
theorem C6_counterexample_hashset_order :
    IsHashSetOrder (mlLanguages mlEvents) ["en", "id"] ∧
    IsHashSetOrder (mlLanguages mlEvents) ["id", "en"] ∧
    MultilingualMemoryFolder.fold_memory constAligner ["en", "id"] "trace1"
        mlEvents ≠
      MultilingualMemoryFolder.fold_memory constAligner ["id", "en"] "trace1"
        mlEvents := by
  refine ⟨by decide, by decide, ?_⟩
  intro h
  have hp := congrArg MultilingualMemoryFold.cross_language_patterns h
  exact absurd hp (by decide)

/-- C6 as amended: `fold_memory` is deterministic up to the unspecified
`HashSet` iteration order: for any two admissible orders of the multilingual
language set, the two folds agree on every field, and their pattern lists
agree pointwise on type, description and confidence, with `languages` lists
equal as sets (the order inside a `MultilingualReasoning` pattern's
`languages` list is the only unspecified part). -/
theorem C6_fold_deterministic_up_to_set_order (align : Aligner) (tid : String)
    (events : List LanguageAwareAgentEvent) (o1 o2 : List String)
    (h1 : IsHashSetOrder (mlLanguages events) o1)
    (h2 : IsHashSetOrder (mlLanguages events) o2) :
    (MultilingualMemoryFolder.fold_memory align o1 tid events).trace_id =
      (MultilingualMemoryFolder.fold_memory align o2 tid events).trace_id ∧
    (MultilingualMemoryFolder.fold_memory align o1 tid events).total_events =
      (MultilingualMemoryFolder.fold_memory align o2 tid events).total_events ∧
    (MultilingualMemoryFolder.fold_memory align o1 tid events).key_insights =
      (MultilingualMemoryFolder.fold_memory align o2 tid events).key_insights ∧
    (MultilingualMemoryFolder.fold_memory align o1 tid
        events).language_distribution =
      (MultilingualMemoryFolder.fold_memory align o2 tid
        events).language_distribution ∧
    (MultilingualMemoryFolder.fold_memory align o1 tid
        events).translation_summary =
      (MultilingualMemoryFolder.fold_memory align o2 tid
        events).translation_summary ∧
    (MultilingualMemoryFolder.fold_memory align o1 tid
        events).compression_ratio =
      (MultilingualMemoryFolder.fold_memory align o2 tid
        events).compression_ratio ∧
    (MultilingualMemoryFolder.fold_memory align o1 tid
        events).overall_alignment =
      (MultilingualMemoryFolder.fold_memory align o2 tid
        events).overall_alignment ∧
    List.Forall₂
      (fun p q : CrossLanguagePattern =>
        p.pattern_type = q.pattern_type ∧ p.description = q.description ∧
        p.confidence = q.confidence ∧ ∀ x, x ∈ p.languages ↔ x ∈ q.languages)
      (MultilingualMemoryFolder.fold_memory align o1 tid
        events).cross_language_patterns
      (MultilingualMemoryFolder.fold_memory align o2 tid
        events).cross_language_patterns := by
  refine ⟨rfl, rfl, rfl, rfl, rfl, rfl, rfl, ?_⟩
  show List.Forall₂ _ (detect_cross_language_patterns o1 events)
    (detect_cross_language_patterns o2 events)
  unfold detect_cross_language_patterns
  simp only
  have hsame : ∀ l : List CrossLanguagePattern,
      List.Forall₂
        (fun p q : CrossLanguagePattern =>
          p.pattern_type = q.pattern_type ∧ p.description = q.description ∧
          p.confidence = q.confidence ∧
          ∀ x, x ∈ p.languages ↔ x ∈ q.languages) l l := by
    intro l
    rw [List.forall₂_same]
    intro p _
    exact ⟨rfl, rfl, rfl, fun x => Iff.rfl⟩
  have hmem : ∀ x, x ∈ o1 ↔ x ∈ o2 := by
    intro x
    constructor
    · intro hx
      exact h2.2.1 (h1.2.2 hx)
    · intro hx
      exact h1.2.1 (h2.2.2 hx)
  split
  · exact List.rel_append (hsame _)
      (List.Forall₂.cons ⟨rfl, rfl, rfl, hmem⟩ List.Forall₂.nil)
  · exact hsame _

/-- Witness for the amended C6 at concrete inputs: both orders of the
two-language set are admissible, and the folds' pattern lists agree up to
the order inside the `languages` lists. -/
theorem C6_fold_deterministic_up_to_set_order_witness :
    (MultilingualMemoryFolder.fold_memory constAligner ["en", "id"] "trace1"
        mlEvents).translation_summary =
      (MultilingualMemoryFolder.fold_memory constAligner ["id", "en"] "trace1"
        mlEvents).translation_summary ∧
    List.Forall₂
      (fun p q : CrossLanguagePattern =>
        p.pattern_type = q.pattern_type ∧ p.description = q.description ∧
        p.confidence = q.confidence ∧ ∀ x, x ∈ p.languages ↔ x ∈ q.languages)
      (MultilingualMemoryFolder.fold_memory constAligner ["en", "id"] "trace1"
        mlEvents).cross_language_patterns
      (MultilingualMemoryFolder.fold_memory constAligner ["id", "en"] "trace1"
        mlEvents).cross_language_patterns := by
  have h := C6_fold_deterministic_up_to_set_order constAligner "trace1"
    mlEvents ["en", "id"] ["id", "en"] (by decide) (by decide)
  exact ⟨h.2.2.2.2.1, h.2.2.2.2.2.2.2⟩

/-! ### Contributor statistics and leaderboard (`ContributorStats.rs`) -/

/-- `LanguageAwareContributorStats`; the proficiency `HashMap` is modelled
as an association list (Rust `HashMap` equality is content-based and no
claim depends on its iteration order). -/
structure LanguageAwareContributorStats where
  contributor_id : String
  total_traces : ℕ
  avg_trace_depth : ℚ
  avg_uniqueness : ℚ
  avg_serendipity : ℚ
  languages_used : List String
  language_proficiency : List (String × ℚ)
  cross_language_expertise : ℚ
  multilingual_traces : ℕ
  avg_alignment_score : ℚ
  avg_translation_quality : ℚ
  discoveries : List String
  expertise_domains : List String
deriving DecidableEq

/-- `LanguageAwareContributorStats::new`. -/
def LanguageAwareContributorStats.mkNew (contributor_id : String) :
    LanguageAwareContributorStats :=
  { contributor_id := contributor_id
    total_traces := 0
    avg_trace_depth := 0
    avg_uniqueness := 0
    avg_serendipity := 0
    languages_used := []
    language_proficiency := []
    cross_language_expertise := 0
    multilingual_traces := 0
    avg_alignment_score := 0
    avg_translation_quality := 0
    discoveries := []
    expertise_domains := [] }

/-- `HashMap::insert` on the association-list model: replace or append. -/
def assocInsert (m : List (String × ℚ)) (k : String) (v : ℚ) :
    List (String × ℚ) :=
  if m.any (fun p => p.1 == k) then
    m.map (fun p => if p.1 = k then (k, v) else p)
  else m ++ [(k, v)]

/-- `LanguageAwareContributorStats::add_trace`. -/
def LanguageAwareContributorStats.add_trace
    (s : LanguageAwareContributorStats) (depth : ℕ)
    (uniqueness serendipity : ℚ) (languages : List String)
    (alignment_score translation_quality : ℚ) :
    LanguageAwareContributorStats :=
  let total_traces := s.total_traces + 1
  let avg_trace_depth :=
    (s.avg_trace_depth * ((total_traces - 1 : ℕ) : ℚ) + (depth : ℚ)) /
      (total_traces : ℚ)
  let avg_uniqueness :=
    (s.avg_uniqueness * ((total_traces - 1 : ℕ) : ℚ) + uniqueness) /
      (total_traces : ℚ)
  let avg_serendipity :=
    (s.avg_serendipity * ((total_traces - 1 : ℕ) : ℚ) + serendipity) /
      (total_traces : ℚ)
  let multilingual_traces :=
    if languages.length > 1 then s.multilingual_traces + 1
    else s.multilingual_traces
  let lp := languages.foldl
    (fun (acc : List String × List (String × ℚ)) lang =>
      (if acc.1.contains lang then acc.1 else acc.1 ++ [lang],
       assocInsert acc.2 lang
         ((((acc.2.lookup lang).getD 0) + uniqueness) / 2)))
    (s.languages_used, s.language_proficiency)
  let cross_language_expertise :=
    min ((lp.1.length : ℚ)) 10 / 10 *
      ((multilingual_traces : ℚ) / (total_traces : ℚ))
  let avg_alignment_score :=
    (s.avg_alignment_score * ((total_traces - 1 : ℕ) : ℚ) + alignment_score) /
      (total_traces : ℚ)
  let avg_translation_quality :=
    (s.avg_translation_quality * ((total_traces - 1 : ℕ) : ℚ) +
        translation_quality) / (total_traces : ℚ)
  { contributor_id := s.contributor_id
    total_traces := total_traces
    avg_trace_depth := avg_trace_depth
    avg_uniqueness := avg_uniqueness
    avg_serendipity := avg_serendipity
    languages_used := lp.1
    language_proficiency := lp.2
    cross_language_expertise := cross_language_expertise
    multilingual_traces := multilingual_traces
    avg_alignment_score := avg_alignment_score
    avg_translation_quality := avg_translation_quality
    discoveries := s.discoveries
    expertise_domains := s.expertise_domains }

/-- `LanguageAwareContributorStats::add_discovery`. -/
def LanguageAwareContributorStats.add_discovery
    (s : LanguageAwareContributorStats) (discovery_name : String) :
    LanguageAwareContributorStats :=
  if s.discoveries.contains discovery_name then s
  else { s with discoveries := s.discoveries ++ [discovery_name] }

/-- `LanguageAwareContributorStats::overall_score`. -/
def LanguageAwareContributorStats.overall_score
    (s : LanguageAwareContributorStats) : ℚ :=
  let depth_score := min (s.avg_trace_depth / 50) 1
  let uniqueness_score := s.avg_uniqueness
  let serendipity_score := s.avg_serendipity
  let language_score := s.cross_language_expertise
  let quality_score := (s.avg_alignment_score + s.avg_translation_quality) / 2
  let discovery_score := min ((s.discoveries.length : ℚ) / 10) 1
  0.20 * depth_score + 0.25 * uniqueness_score + 0.20 * serendipity_score +
    0.15 * language_score + 0.10 * quality_score + 0.10 * discovery_score

/-- `LanguageAwareRankingCriteria`. -/
inductive LanguageAwareRankingCriteria where
  | Overall
  | Serendipity
  | CrossLanguageExpertise
  | Discoveries
  | TranslationQuality
  | LanguageDiversity
deriving DecidableEq

/-- `LanguageAwareLeaderboard::get_score`. -/
def get_score (stats : LanguageAwareContributorStats)
    (criteria : LanguageAwareRankingCriteria) : ℚ :=
  match criteria with
  | .Overall => stats.overall_score
  | .Serendipity => stats.avg_serendipity
  | .CrossLanguageExpertise => stats.cross_language_expertise
  | .Discoveries => (stats.discoveries.length : ℚ)
  | .TranslationQuality => stats.avg_translation_quality
  | .LanguageDiversity => (stats.languages_used.length : ℚ)

/-- `LanguageAwareLeaderboard::get_top_n`, over the contributor values in
any `HashMap` iteration order: a stable sort by descending criterion score
(Rust's `sort_by` with `score_b.partial_cmp(&score_a)`), then the first
`n`. -/
def get_top_n (contributors : List LanguageAwareContributorStats) (n : ℕ)
    (criteria : LanguageAwareRankingCriteria) :
    List LanguageAwareContributorStats :=
  (contributors.mergeSort
    (fun a b => decide (get_score b criteria ≤ get_score a criteria))).take n

/-- One `add_trace` call's argument tuple. -/
structure TraceInput where
  depth : ℕ
  uniqueness : ℚ
  serendipity : ℚ
  languages : List String
  alignment_score : ℚ
  translation_quality : ℚ

/-- `add_trace` uncurried over a `TraceInput`. -/
def addTraceCall (s : LanguageAwareContributorStats) (i : TraceInput) :
    LanguageAwareContributorStats :=
  s.add_trace i.depth i.uniqueness i.serendipity i.languages i.alignment_score
    i.translation_quality

lemma incAvg_mul (a x : ℚ) (n : ℕ) :
    (a * (((n + 1 - 1 : ℕ)) : ℚ) + x) / ((n + 1 : ℕ) : ℚ) *
      ((n + 1 : ℕ) : ℚ) = a * (n : ℚ) + x := by
  have hne : ((n + 1 : ℕ) : ℚ) ≠ 0 := by
    exact_mod_cast Nat.succ_ne_zero n
  rw [div_mul_cancel₀ _ hne, Nat.add_sub_cancel]

lemma foldl_addTrace_totals :
    ∀ (inputs : List TraceInput) (s : LanguageAwareContributorStats),
      (inputs.foldl addTraceCall s).total_traces =
        s.total_traces + inputs.length ∧
      (inputs.foldl addTraceCall s).avg_trace_depth *
          ((s.total_traces + inputs.length : ℕ) : ℚ) =
        s.avg_trace_depth * (s.total_traces : ℚ) +
          (inputs.map (fun i => (i.depth : ℚ))).sum ∧
      (inputs.foldl addTraceCall s).avg_uniqueness *
          ((s.total_traces + inputs.length : ℕ) : ℚ) =
        s.avg_uniqueness * (s.total_traces : ℚ) +
          (inputs.map (fun i => i.uniqueness)).sum ∧
      (inputs.foldl addTraceCall s).avg_serendipity *
          ((s.total_traces + inputs.length : ℕ) : ℚ) =
        s.avg_serendipity * (s.total_traces : ℚ) +
          (inputs.map (fun i => i.serendipity)).sum ∧
      (inputs.foldl addTraceCall s).avg_alignment_score *
          ((s.total_traces + inputs.length : ℕ) : ℚ) =
        s.avg_alignment_score * (s.total_traces : ℚ) +
          (inputs.map (fun i => i.alignment_score)).sum ∧
      (inputs.foldl addTraceCall s).avg_translation_quality *
          ((s.total_traces + inputs.length : ℕ) : ℚ) =
        s.avg_translation_quality * (s.total_traces : ℚ) +
          (inputs.map (fun i => i.translation_quality)).sum := by
  intro inputs
  induction inputs with
  | nil =>
      intro s
      simp
  | cons i inputs ih =>
      intro s
      rw [List.foldl_cons]
      obtain ⟨ht, hd, hu, hs, ha, hq⟩ := ih (addTraceCall s i)
      have htot : (addTraceCall s i).total_traces = s.total_traces + 1 := rfl
      have hlen : s.total_traces + (i :: inputs).length =
          (addTraceCall s i).total_traces + inputs.length := by
        rw [htot, List.length_cons]
        omega
      refine ⟨?_, ?_, ?_, ?_, ?_, ?_⟩
      · rw [ht, htot, List.length_cons]
        omega
      · rw [hlen, hd, htot]
        show (s.avg_trace_depth * ((s.total_traces + 1 - 1 : ℕ) : ℚ) +
            (i.depth : ℚ)) / ((s.total_traces + 1 : ℕ) : ℚ) *
            ((s.total_traces + 1 : ℕ) : ℚ) + _ = _
        rw [incAvg_mul, List.map_cons, List.sum_cons]
        ring
      · rw [hlen, hu, htot]
        show (s.avg_uniqueness * ((s.total_traces + 1 - 1 : ℕ) : ℚ) +
            i.uniqueness) / ((s.total_traces + 1 : ℕ) : ℚ) *
            ((s.total_traces + 1 : ℕ) : ℚ) + _ = _
        rw [incAvg_mul, List.map_cons, List.sum_cons]
        ring
      · rw [hlen, hs, htot]
        show (s.avg_serendipity * ((s.total_traces + 1 - 1 : ℕ) : ℚ) +
            i.serendipity) / ((s.total_traces + 1 : ℕ) : ℚ) *
            ((s.total_traces + 1 : ℕ) : ℚ) + _ = _
        rw [incAvg_mul, List.map_cons, List.sum_cons]
        ring
      · rw [hlen, ha, htot]
        show (s.avg_alignment_score * ((s.total_traces + 1 - 1 : ℕ) : ℚ) +
            i.alignment_score) / ((s.total_traces + 1 : ℕ) : ℚ) *
            ((s.total_traces + 1 : ℕ) : ℚ) + _ = _
        rw [incAvg_mul, List.map_cons, List.sum_cons]
        ring
      · rw [hlen, hq, htot]
        show (s.avg_translation_quality * ((s.total_traces + 1 - 1 : ℕ) : ℚ) +
            i.translation_quality) / ((s.total_traces + 1 : ℕ) : ℚ) *
            ((s.total_traces + 1 : ℕ) : ℚ) + _ = _
        rw [incAvg_mul, List.map_cons, List.sum_cons]
        ring

/-- C8: after `k ≥ 1` `add_trace` calls, each of the five running averages
equals the exact arithmetic mean of the corresponding inputs (their sum over
`k`), with `total_traces = k`; the code maintains them by the incremental
identity `mean_n = (mean_nm1 * (n-1) + x_n) / n` with `n` the
post-increment count. -/
theorem C8_incremental_means (cid : String) (inputs : List TraceInput)
    (h : inputs ≠ []) :
    (inputs.foldl addTraceCall
      (LanguageAwareContributorStats.mkNew cid)).total_traces =
        inputs.length ∧
    (inputs.foldl addTraceCall
      (LanguageAwareContributorStats.mkNew cid)).avg_trace_depth =
        (inputs.map (fun i => (i.depth : ℚ))).sum / (inputs.length : ℚ) ∧
    (inputs.foldl addTraceCall
      (LanguageAwareContributorStats.mkNew cid)).avg_uniqueness =
        (inputs.map (fun i => i.uniqueness)).sum / (inputs.length : ℚ) ∧
    (inputs.foldl addTraceCall
      (LanguageAwareContributorStats.mkNew cid)).avg_serendipity =
        (inputs.map (fun i => i.serendipity)).sum / (inputs.length : ℚ) ∧
    (inputs.foldl addTraceCall
      (LanguageAwareContributorStats.mkNew cid)).avg_alignment_score =
        (inputs.map (fun i => i.alignment_score)).sum / (inputs.length : ℚ) ∧
    (inputs.foldl addTraceCall
      (LanguageAwareContributorStats.mkNew cid)).avg_translation_quality =
        (inputs.map (fun i => i.translation_quality)).sum /
          (inputs.length : ℚ) := by
  obtain ⟨ht, hd, hu, hs, ha, hq⟩ :=
    foldl_addTrace_totals inputs (LanguageAwareContributorStats.mkNew cid)
  have hzero : (LanguageAwareContributorStats.mkNew cid).total_traces = 0 :=
    rfl
  have hlenne : ((inputs.length : ℕ) : ℚ) ≠ 0 := by
    have : inputs.length ≠ 0 := fun hc => h (List.eq_nil_of_length_eq_zero hc)
    exact_mod_cast this
  rw [hzero] at ht hd hu hs ha hq
  simp only [Nat.zero_add] at ht hd hu hs ha hq
  rw [LanguageAwareContributorStats.mkNew] at hd hu hs ha hq
  simp only [zero_mul, zero_add] at hd hu hs ha hq
  refine ⟨ht, ?_, ?_, ?_, ?_, ?_⟩ <;>
    rw [eq_div_iff hlenne]
  · exact hd
  · exact hu
  · exact hs
  · exact ha
  · exact hq

/-- Witness for C8: three concrete trace inputs give total 3 and the exact
means of the supplied depths, uniqueness, serendipity, alignment and
translation-quality values. -/
theorem C8_incremental_means_witness :
    (([⟨10, 1/2, 3/4, ["en"], 1/4, 1/5⟩,
      ⟨20, 1/4, 1/2, ["en", "id"], 3/4, 2/5⟩,
      ⟨4, 1, 1/4, ["id"], 1/4, 3/5⟩] : List TraceInput).foldl addTraceCall
        (LanguageAwareContributorStats.mkNew "r1")).total_traces = 3 ∧
    (([⟨10, 1/2, 3/4, ["en"], 1/4, 1/5⟩,
      ⟨20, 1/4, 1/2, ["en", "id"], 3/4, 2/5⟩,
      ⟨4, 1, 1/4, ["id"], 1/4, 3/5⟩] : List TraceInput).foldl addTraceCall
        (LanguageAwareContributorStats.mkNew "r1")).avg_trace_depth =
      (([⟨10, 1/2, 3/4, ["en"], 1/4, 1/5⟩,
        ⟨20, 1/4, 1/2, ["en", "id"], 3/4, 2/5⟩,
        ⟨4, 1, 1/4, ["id"], 1/4, 3/5⟩] : List TraceInput).map
          (fun i => (i.depth : ℚ))).sum / 3 := by
  have h := C8_incremental_means "r1"
    [⟨10, 1/2, 3/4, ["en"], 1/4, 1/5⟩,
     ⟨20, 1/4, 1/2, ["en", "id"], 3/4, 2/5⟩,
     ⟨4, 1, 1/4, ["id"], 1/4, 3/5⟩] (List.cons_ne_nil _ _)
  exact ⟨h.1, h.2.1⟩

/-- C9: `get_top_n` returns a list sorted in descending (allowing equal)
order of the selected criterion's score, it has exactly
`min n (number of contributors)` entries (so never more than either), and on
an empty leaderboard it returns the empty list rather than failing. -/
theorem C9_get_top_n_sorted (contributors : List LanguageAwareContributorStats)
    (n : ℕ) (criteria : LanguageAwareRankingCriteria) :
    List.Pairwise
      (fun a b => get_score b criteria ≤ get_score a criteria)
      (get_top_n contributors n criteria) ∧
    (get_top_n contributors n criteria).length =
      min n contributors.length ∧
    (contributors = [] → get_top_n contributors n criteria = []) := by
  have htrans : ∀ a b c : LanguageAwareContributorStats,
      decide (get_score b criteria ≤ get_score a criteria) = true →
      decide (get_score c criteria ≤ get_score b criteria) = true →
      decide (get_score c criteria ≤ get_score a criteria) = true := by
    intro a b c hab hbc
    rw [decide_eq_true_eq] at *
    exact le_trans hbc hab
  have htotal : ∀ a b : LanguageAwareContributorStats,
      (decide (get_score b criteria ≤ get_score a criteria) ||
        decide (get_score a criteria ≤ get_score b criteria)) = true := by
    intro a b
    rcases le_total (get_score b criteria) (get_score a criteria) with h | h
    · simp [h]
    · simp [h]
  refine ⟨?_, ?_, ?_⟩
  · have hs := List.sorted_mergeSort htrans htotal contributors
    have htake := List.Pairwise.sublist (List.take_sublist n _) hs
    exact htake.imp (fun h => of_decide_eq_true h)
  · unfold get_top_n
    rw [List.length_take, List.length_mergeSort]
  · intro h
    subst h
    simp [get_top_n, List.mergeSort_nil]

/-- A concrete contributor record with one trace. -/
def statA : LanguageAwareContributorStats :=
  (LanguageAwareContributorStats.mkNew "a").add_trace 10 (1/2) (3/4) ["en"]
    (1/2) (1/2)

/-- Another concrete contributor record with one trace. -/
def statB : LanguageAwareContributorStats :=
  (LanguageAwareContributorStats.mkNew "b").add_trace 20 (1/4) (9/10)
    ["en", "id"] (1/2) (1/2)

/-- Witness for C9 at concrete inputs: a two-entry leaderboard with `n = 5`
gives a descending list of `min 5 2` entries, and the empty leaderboard
gives the empty list. -/
theorem C9_get_top_n_sorted_witness :
    List.Pairwise
      (fun a b => get_score b .Serendipity ≤ get_score a .Serendipity)
      (get_top_n [statA, statB] 5 .Serendipity) ∧
    (get_top_n [statA, statB] 5 .Serendipity).length = min 5 2 ∧
    get_top_n [] 3 .Overall = [] := by
  have h1 := C9_get_top_n_sorted [statA, statB] 5 .Serendipity
  have h2 := C9_get_top_n_sorted ([] : List LanguageAwareContributorStats) 3
    .Overall
  exact ⟨h1.1, h1.2.1, h2.2.2 rfl⟩
